import Mathlib

/-!
Verification of the Interactive Learning Pro site: focus-trapped modal,
scroll-spy tracker, section navigator and contact form.

Shallow embedding of `src/interactive_learning_pro_site_refactor_a_11_y_perf.jsx`.

DOM elements are modelled as natural-number identifiers.  The document is a
list of the element ids currently attached; keyboard focus is an
`Option Nat` (`none` = focus unset / on the body).  The browser primitive
`element.focus()` moves focus to the element only when it is attached to the
document, and is a no-op on a detached element.
-/

namespace ILP

/-- Browser `el.focus()`: moves focus to `e` when `e` is in the document,
otherwise leaves focus unchanged (focusing a detached element is a no-op). -/
def jsFocus (doc : List Nat) (focus : Option Nat) (e : Nat) : Option Nat :=
  if e ∈ doc then some e else focus

/-- JS `Array.prototype.indexOf`: index of the first occurrence, `-1` when
the element is absent.  Mirrors `list.indexOf(document.activeElement)` in
the modal's `onKey` handler (source line 58). -/
def jsIndexOf (l : List Nat) (x : Nat) : Int :=
  if x ∈ l then (l.indexOf x : Int) else -1

/-! ## Modal focus management (source lines 45–65)

```js
useEffect(() => {
  if (!open) return;
  const prev = document.activeElement;
  const focusable = dialogRef.current?.querySelectorAll(...);
  const first = focusable?.[0];
  first && first.focus();
  const onKey = (e) => { ... };
  document.addEventListener("keydown", onKey);
  return () => { document.removeEventListener("keydown", onKey); prev && prev.focus(); };
}, [open, onClose]);
```
-/

/-- The focus move performed by the modal's open effect (source lines 51–52):
`const first = focusable?.[0]; first && first.focus();` — when the focusable
list is empty nothing runs, so focus is unchanged. -/
def openFocus (doc : List Nat) (focusable : List Nat) (focus : Option Nat) :
    Option Nat :=
  match focusable.head? with
  | some first => jsFocus doc focus first
  | none => focus

/-- Focus after the modal's DOM subtree is removed from the document: the
browser unsets focus (to the body, modelled as `none`) when the focused
element was inside the removed subtree, and leaves it otherwise. -/
def unmountFocus (modalElems : List Nat) (focus : Option Nat) : Option Nat :=
  match focus with
  | some f => if f ∈ modalElems then none else some f
  | none => none

/-- The restore step of the modal's effect cleanup (source line 64):
`prev && prev.focus()` — when a prior element was captured, `focus()` is
called on it; the browser primitive only moves focus when that element is
still attached to the (post-removal) document `doc`. -/
def closeRestore (doc : List Nat) (focus : Option Nat) (prev : Option Nat) :
    Option Nat :=
  match prev with
  | none => focus
  | some e => jsFocus doc focus e

/-- Full focus outcome of closing the modal: the modal subtree
(`modalElems`) is unmounted, then the cleanup's restore step runs against
the remaining document `doc`. -/
def closeModalFocus (doc : List Nat) (modalElems : List Nat)
    (focus : Option Nat) (prev : Option Nat) : Option Nat :=
  closeRestore doc (unmountFocus modalElems focus) prev

/-! ## The keydown focus trap (source lines 54–62)

```js
const onKey = (e) => {
  if (e.key === "Escape") onClose();
  if (e.key === "Tab" && focusable && focusable.length) {
    const list = Array.from(focusable);
    const idx = list.indexOf(document.activeElement);
    if (e.shiftKey && (idx <= 0)) { e.preventDefault(); list[list.length - 1].focus(); }
    else if (!e.shiftKey && (idx === list.length - 1)) { e.preventDefault(); list[0].focus(); }
  }
};
```
-/

/-- Outcome of the trap's Tab branch: either it calls `preventDefault` and
focuses a specific element, or it lets the browser's default Tab navigation
run. -/
inductive TabOutcome where
  | intercepted (target : Nat)
  | defaultAction
deriving DecidableEq, Repr

/-- The `e.key === "Tab"` branch of `onKey` (source lines 56–61), acting on
the focusable list, the shift-modifier flag, and `document.activeElement`. -/
def onKeyTab (focusable : List Nat) (shift : Bool) (activeElement : Nat) :
    TabOutcome :=
  if focusable.length ≠ 0 then
    if shift = true ∧ jsIndexOf focusable activeElement ≤ 0 then
      .intercepted (focusable.getLastD 0)
    else if shift = false ∧
        jsIndexOf focusable activeElement = (focusable.length : Int) - 1 then
      .intercepted (focusable.headD 0)
    else .defaultAction
  else .defaultAction

/-- One Tab / Shift+Tab press while the modal is open: the trap's outcome,
composed with the browser's default Tab navigation (`nextEl` / `prevEl`
give the next and previous element of the document's tab order) when the
trap does not intercept. -/
def tabStep (focusable : List Nat) (nextEl prevEl : Nat → Nat)
    (shift : Bool) (focus : Nat) : Nat :=
  match onKeyTab focusable shift focus with
  | .intercepted t => t
  | .defaultAction => if shift then prevEl focus else nextEl focus

/-- A finite sequence of presses (`true` = Shift+Tab, `false` = Tab)
applied from a starting focus. -/
def tabRun (focusable : List Nat) (nextEl prevEl : Nat → Nat)
    (presses : List Bool) (focus : Nat) : Nat :=
  presses.foldl (fun f s => tabStep focusable nextEl prevEl s f) focus

/-! ## Escape handling and the open/close state machine

The modal's `onKey` handler runs `if (e.key === "Escape") onClose();`
(source line 55); the handler is attached to `document` only while the
effect for `open = true` is live (lines 46, 63–64), and the host wires
`onClose={() => setFishboneOpen(false)}` (source line 483). -/

/-- Modal system state: the host's `fishboneOpen` flag, whether the `onKey`
listener is currently attached to the document, and how many times the
close handler has been invoked. -/
structure ModalSystem where
  isOpen : Bool
  listenerAttached : Bool
  closeCalls : Nat
deriving DecidableEq, Repr

/-- React effect synchronisation for the modal (source lines 45–65): after
a render, the keydown listener is attached exactly when `open` is true
(the effect attaches it; its cleanup removes it). -/
def syncListener (s : ModalSystem) : ModalSystem :=
  { s with listenerAttached := s.isOpen }

/-- Dispatch of an Escape keydown on the document: the handler only runs if
it is attached; it then invokes `onClose` (`setFishboneOpen(false)`), after
which React re-runs the effect, detaching the listener. -/
def pressEscape (s : ModalSystem) : ModalSystem :=
  if s.listenerAttached then
    syncListener { isOpen := false, listenerAttached := s.listenerAttached,
                   closeCalls := s.closeCalls + 1 }
  else s

/-! ## Contact form (source lines 221–240) -/

/-- The form value record of `useContactForm` (source line 222);
`website` is the honeypot field. -/
structure FormValues where
  name : String
  email : String
  organization : String
  role : String
  interests : List String
  message : String
  website : String
deriving DecidableEq, Repr

/-- The field-level error map built by `validate` (source lines 225–232):
a key is present exactly when the corresponding message was assigned. -/
structure FormErrors where
  name : Option String
  email : Option String
  organization : Option String
  website : Option String
deriving DecidableEq, Repr

/-- `Object.keys(e).length` for the error map. -/
def FormErrors.count (e : FormErrors) : Nat :=
  (if e.name.isSome then 1 else 0) + (if e.email.isSome then 1 else 0) +
    (if e.organization.isSome then 1 else 0) +
    (if e.website.isSome then 1 else 0)

/-- JS `String.prototype.trim`: strips whitespace from both ends. -/
def jsTrim (s : String) : String :=
  ⟨((s.toList.dropWhile Char.isWhitespace).reverse.dropWhile
      Char.isWhitespace).reverse⟩

/-- A character admitted by the regex class `[^\s@]`: neither JS whitespace
nor `@`. -/
def emailChar (c : Char) : Bool := ¬ c.isWhitespace ∧ c ≠ '@'

/-- Denotation of `emailRx = /^[^\s@]+@[^\s@]+\.[^\s@]+$/` (source line
224): the whole string decomposes as `A ++ "@" ++ B ++ "." ++ C` with `A`,
`B`, `C` nonempty and every character of `A`, `B`, `C` in `[^\s@]`.
Equivalently there are positions `i < j` with `s[i] = '@'`, `s[j] = '.'`,
at least one character before `i`, between `i` and `j`, and after `j`, and
every position other than `i` holding a `[^\s@]` character. -/
def emailRxTest (s : String) : Bool :=
  let l := s.toList
  let n := l.length
  (List.range n).any fun i =>
    (List.range n).any fun j =>
      decide (1 ≤ i) && decide (i + 2 ≤ j) && decide (j + 2 ≤ n) &&
      (l.getD i ' ' == '@') && (l.getD j ' ' == '.') &&
      ((List.range n).all fun k => (k == i) || emailChar (l.getD k ' '))

/-- `validate` (source lines 225–232): builds the error map `e` field by
field.  `!values.website` is JS falsiness of a string, i.e. emptiness. -/
def validate (v : FormValues) : FormErrors :=
  { name := if jsTrim v.name = "" then some "Please enter your name." else none,
    email := if jsTrim v.email = "" ∨ emailRxTest v.email = false then
        some "Enter a valid email." else none,
    organization := if jsTrim v.organization = "" then
        some "Organization is required." else none,
    website := if v.website ≠ "" then some "Spam detected." else none }

/-- Result of `submit` (source lines 233–238): the error state after
`setErrors(e)`, whether the acknowledgment side effect (`alert` +
`console.log`) ran, and the form values afterwards (`submit` never calls
`set`, so they pass through). -/
structure SubmitResult where
  errors : FormErrors
  sideEffectInvoked : Bool
  values : FormValues
deriving DecidableEq, Repr

/-- `submit` (source lines 233–238), as a transition on the hook state
`(values, errors)`: `validate` overwrites the previous error map; when it
reports no error the acknowledgment side effect runs. -/
def submit (v : FormValues) (prevErrors : FormErrors) : SubmitResult :=
  let _ := prevErrors
  let e := validate v
  if e.count = 0 then ⟨e, true, v⟩ else ⟨e, false, v⟩

/-! ## Scroll-spy tracker and navigator (source lines 244–259) -/

/-- The statically declared section ids (source line 246). -/
def sections : List String :=
  ["home", "activities", "methodology", "solutions", "about", "contact"]

/-- An `IntersectionObserver` entry as consumed by the callback: the
observed element's id and its `isIntersecting` flag. -/
structure Entry where
  targetId : String
  isIntersecting : Bool
deriving DecidableEq, Repr

/-- The observer callback (source line 255):
`entries.forEach(e => { if (e.isIntersecting) setActive(e.target.id); })` —
each intersecting entry overwrites the active id, in entry order
(last write wins). -/
def observerCallback (entries : List Entry) (active : String) : String :=
  entries.foldl (fun a e => if e.isIntersecting then e.targetId else a) active

/-- The tracker over a whole session: `active` starts at `"home"` (source
line 244) and each delivered batch of entries is folded through the
callback. -/
def runTracker (events : List (List Entry)) : String :=
  events.foldl (fun a entries => observerCallback entries a) "home"

/-- The scroll effect requested by `jump` (source lines 249–252). -/
inductive ScrollEffect where
  | noScroll
  | smoothScrollToStart (id : String)
deriving DecidableEq, Repr

/-- `jump(id)` (source lines 249–252): looks the element up by id in the
document (`dom` is the set of element ids present); `el?.scrollIntoView`
no-ops on `undefined`, otherwise requests a smooth scroll aligning the
element's top edge (`block: "start"`).  Returns the requested effect
together with the (untouched) active-section state. -/
def jump (dom : List String) (id : String) (active : String) :
    ScrollEffect × String :=
  if id ∈ dom then (.smoothScrollToStart id, active) else (.noScroll, active)

end ILP

/-! ## Helper lemmas -/

namespace ILP

/-- An error map with zero `Object.keys` is the empty map. -/
theorem FormErrors.count_eq_zero {e : FormErrors} (h : e.count = 0) :
    e = ⟨none, none, none, none⟩ := by
  obtain ⟨n, em, o, w⟩ := e
  cases n <;> cases em <;> cases o <;> cases w <;>
    simp_all [FormErrors.count]

/-- A populated `website` key makes the error map nonempty. -/
theorem FormErrors.count_ne_zero_of_website {e : FormErrors}
    (h : e.website.isSome = true) : e.count ≠ 0 := by
  unfold FormErrors.count
  rw [if_pos h]
  omega

theorem jsIndexOf_of_mem {l : List Nat} {x : Nat} (h : x ∈ l) :
    jsIndexOf l x = (l.indexOf x : Int) := if_pos h

theorem jsIndexOf_of_not_mem {l : List Nat} {x : Nat} (h : x ∉ l) :
    jsIndexOf l x = -1 := if_neg h

theorem getLastD_mem : ∀ (l : List Nat), l ≠ [] → l.getLastD 0 ∈ l
  | [], h => absurd rfl h
  | [a], _ => by simp [List.getLastD]
  | a :: b :: t, _ => by
      have hmem := getLastD_mem (b :: t) (by simp)
      simp only [List.getLastD]
      exact List.mem_cons_of_mem a hmem

theorem headD_mem : ∀ (l : List Nat), l ≠ [] → l.headD 0 ∈ l
  | [], h => absurd rfl h
  | a :: t, _ => by simp [List.headD]

end ILP

/-! ## The claims -/

/-- C5: for every assignment of the other form fields, submitting the
contact form with a non-empty honeypot (`website`) field fails validation
(the `website` error key is populated, so the error map is nonempty) and
the acknowledgment side effect does not run. -/
theorem honeypot_always_blocks (v : ILP.FormValues)
    (prevErrors : ILP.FormErrors) (hweb : v.website ≠ "") :
    (ILP.validate v).website = some "Spam detected." ∧
    (ILP.validate v).count ≠ 0 ∧
    (ILP.submit v prevErrors).sideEffectInvoked = false := by
  have hw : (ILP.validate v).website = some "Spam detected." := by
    simp [ILP.validate, hweb]
  have hc : (ILP.validate v).count ≠ 0 :=
    ILP.FormErrors.count_ne_zero_of_website (by rw [hw]; rfl)
  refine ⟨hw, hc, ?_⟩
  unfold ILP.submit
  rw [if_neg hc]

/-- Witness for `honeypot_always_blocks`: a submission whose other fields
are all valid, but whose honeypot field holds `"spam"`. -/
theorem honeypot_always_blocks_witness :
    (ILP.validate ⟨"Alice", "a@b.co", "Org", "", [], "", "spam"⟩).website =
        some "Spam detected." ∧
    (ILP.validate ⟨"Alice", "a@b.co", "Org", "", [], "", "spam"⟩).count ≠ 0 ∧
    (ILP.submit ⟨"Alice", "a@b.co", "Org", "", [], "", "spam"⟩
        ⟨none, none, none, none⟩).sideEffectInvoked = false :=
  honeypot_always_blocks ⟨"Alice", "a@b.co", "Org", "", [], "", "spam"⟩
    ⟨none, none, none, none⟩ (by decide)

/-- C4: submitting with an empty name, a pattern-rejected email, a
non-blank organization and an empty honeypot yields exactly the two field
errors `name` and `email`, and the acknowledgment side effect does not
run. -/
theorem invalid_submit_two_errors (v : ILP.FormValues)
    (prevErrors : ILP.FormErrors) (hname : v.name = "")
    (hemail : ILP.emailRxTest v.email = false)
    (horg : ILP.jsTrim v.organization ≠ "") (hweb : v.website = "") :
    ILP.validate v =
      ⟨some "Please enter your name.", some "Enter a valid email.",
        none, none⟩ ∧
    (ILP.validate v).count = 2 ∧
    (ILP.submit v prevErrors).sideEffectInvoked = false := by
  have h1 : ILP.jsTrim v.name = "" := by rw [hname]; rfl
  have hv : ILP.validate v =
      ⟨some "Please enter your name.", some "Enter a valid email.",
        none, none⟩ := by
    simp [ILP.validate, h1, hemail, horg, hweb]
  refine ⟨hv, by rw [hv]; rfl, ?_⟩
  unfold ILP.submit
  rw [hv]
  rfl

/-- Witness for `invalid_submit_two_errors`: name `""`, email
`"not-an-email"`, organization `"NHS"`, empty honeypot. -/
theorem invalid_submit_two_errors_witness :
    ILP.validate ⟨"", "not-an-email", "NHS", "", [], "", ""⟩ =
      ⟨some "Please enter your name.", some "Enter a valid email.",
        none, none⟩ ∧
    (ILP.validate ⟨"", "not-an-email", "NHS", "", [], "", ""⟩).count = 2 ∧
    (ILP.submit ⟨"", "not-an-email", "NHS", "", [], "", ""⟩
        ⟨none, none, none, none⟩).sideEffectInvoked = false :=
  invalid_submit_two_errors ⟨"", "not-an-email", "NHS", "", [], "", ""⟩
    ⟨none, none, none, none⟩ rfl (by decide) (by decide) rfl

/-- C10: a submission that passes validation invokes the acknowledgment
side effect, leaves every form field value unchanged, and replaces the
previous error map with the empty one. -/
theorem valid_submit_preserves_values (v : ILP.FormValues)
    (prevErrors : ILP.FormErrors) (hvalid : (ILP.validate v).count = 0) :
    ILP.submit v prevErrors =
      ⟨⟨none, none, none, none⟩, true, v⟩ := by
  unfold ILP.submit
  rw [if_pos hvalid, ILP.FormErrors.count_eq_zero hvalid]

/-- Witness for `valid_submit_preserves_values`: a fully valid submission. -/
theorem valid_submit_preserves_values_witness :
    ILP.submit ⟨"Alice", "a@b.co", "Org", "", [], "", ""⟩
        ⟨some "Please enter your name.", none, none, none⟩ =
      ⟨⟨none, none, none, none⟩, true,
        ⟨"Alice", "a@b.co", "Org", "", [], "", ""⟩⟩ :=
  valid_submit_preserves_values ⟨"Alice", "a@b.co", "Org", "", [], "", ""⟩
    ⟨some "Please enter your name.", none, none, none⟩ (by decide)

/-- C7: from a synchronised open state, an Escape keydown closes the modal
and invokes the close handler exactly once; a further Escape keydown in the
resulting closed state changes nothing and invokes no handler. -/
theorem escape_closes_exactly_once (n : Nat) :
    ILP.pressEscape ⟨true, true, n⟩ = ⟨false, false, n + 1⟩ ∧
    ILP.pressEscape ⟨false, false, n + 1⟩ = ⟨false, false, n + 1⟩ := by
  constructor <;> rfl

/-- C8: `jump` never modifies the active-section state; with no element of
the requested id in the document it requests nothing (and raises no error),
and otherwise its only effect is a smooth scroll request aligning that
element's top edge. -/
theorem jump_no_state_change (dom : List String) (id active : String) :
    (ILP.jump dom id active).2 = active ∧
    (id ∉ dom → (ILP.jump dom id active).1 = .noScroll) ∧
    (id ∈ dom → (ILP.jump dom id active).1 = .smoothScrollToStart id) := by
  unfold ILP.jump
  by_cases h : id ∈ dom
  · rw [if_pos h]
    exact ⟨rfl, fun hc => absurd h hc, fun _ => rfl⟩
  · rw [if_neg h]
    exact ⟨rfl, fun _ => rfl, fun hc => absurd hc h⟩

/-- Witness for `jump_no_state_change`: a present and an absent section id. -/
theorem jump_no_state_change_witness :
    (ILP.jump ["home", "contact"] "nope" "home").2 = "home" ∧
    (ILP.jump ["home", "contact"] "nope" "home").1 = .noScroll ∧
    (ILP.jump ["home", "contact"] "contact" "home").1 =
      .smoothScrollToStart "contact" :=
  ⟨(jump_no_state_change ["home", "contact"] "nope" "home").1,
   (jump_no_state_change ["home", "contact"] "nope" "home").2.1 (by decide),
   (jump_no_state_change ["home", "contact"] "contact" "home").2.2 (by decide)⟩

/-- C2 counterexample: the modal container is element `0`, the previously
focused trigger is element `5`, both in the document; the focusable list is
empty.  The open effect leaves focus on element `5` — it does not move
focus onto the modal container. -/
theorem open_no_focusable_container_cex :
    ILP.openFocus [0, 5] [] (some 5) = some 5 ∧
    ILP.openFocus [0, 5] [] (some 5) ≠ some 0 := by
  constructor <;> decide

/-- C2 amended: whenever the modal is opened and its content region
contains no focusable descendant, the open effect leaves focus unchanged
(`first && first.focus()` runs nothing); in particular the modal container
itself is never focused by the open logic. -/
theorem open_no_focusable_leaves_focus (doc : List Nat)
    (focus : Option Nat) : ILP.openFocus doc [] focus = focus := rfl

/-- C1: closing the modal (its subtree `modalElems` is unmounted and the
cleanup runs `prev && prev.focus()`): provided focus at close time is
inside the modal subtree (the focus trap's invariant) or already unset,
focus ends on the prior element `e` exactly when `e` is still in the
document, and is left unset otherwise. -/
theorem close_restores_prior_focus (doc modalElems : List Nat)
    (focus : Option Nat) (e : Nat)
    (hfocus : focus = none ∨ ∃ f, focus = some f ∧ f ∈ modalElems) :
    (e ∈ doc → ILP.closeModalFocus doc modalElems focus (some e) = some e) ∧
    (e ∉ doc → ILP.closeModalFocus doc modalElems focus (some e) = none) := by
  have hun : ILP.unmountFocus modalElems focus = none := by
    rcases hfocus with h | ⟨f, hf, hmem⟩
    · rw [h]; rfl
    · rw [hf]
      simp [ILP.unmountFocus, hmem]
  unfold ILP.closeModalFocus ILP.closeRestore
  rw [hun]
  constructor
  · intro h
    simp [ILP.jsFocus, h]
  · intro h
    simp [ILP.jsFocus, h]

/-- Witness for `close_restores_prior_focus`: modal elements `1, 2`, focus
on `1` at close time, prior element `7`; restores to `7` when `7` is in
the document, leaves focus unset when it is not. -/
theorem close_restores_prior_focus_witness :
    ILP.closeModalFocus [7] [1, 2] (some 1) (some 7) = some 7 ∧
    ILP.closeModalFocus [8] [1, 2] (some 1) (some 7) = none :=
  ⟨(close_restores_prior_focus [7] [1, 2] (some 1) 7
      (Or.inr ⟨1, rfl, by decide⟩)).1 (by decide),
   (close_restores_prior_focus [8] [1, 2] (some 1) 7
      (Or.inr ⟨1, rfl, by decide⟩)).2 (by decide)⟩

namespace ILP

/-- The observer callback keeps the active id among the declared sections,
given that every delivered entry targets an observed (declared) section. -/
theorem observerCallback_mem_sections :
    ∀ (entries : List Entry) (active : String),
      (∀ en ∈ entries, en.targetId ∈ sections) → active ∈ sections →
        observerCallback entries active ∈ sections
  | [], _, _, ha => ha
  | en :: rest, active, h, ha => by
      have hstep : (if en.isIntersecting then en.targetId else active) ∈
          sections := by
        by_cases hb : en.isIntersecting = true
        · rw [if_pos hb]
          exact h en (List.mem_cons_self en rest)
        · rw [if_neg hb]
          exact ha
      have htail : ∀ x ∈ rest, x.targetId ∈ sections :=
        fun x hx => h x (List.mem_cons_of_mem en hx)
      exact observerCallback_mem_sections rest _ htail hstep

/-- A batch of entries none of which intersects leaves the active id
untouched. -/
theorem observerCallback_no_intersect :
    ∀ (entries : List Entry) (active : String),
      (∀ en ∈ entries, en.isIntersecting = false) →
        observerCallback entries active = active
  | [], _, _ => rfl
  | en :: rest, active, h => by
      have hb : en.isIntersecting = false := h en (List.mem_cons_self en rest)
      have htail : ∀ x ∈ rest, x.isIntersecting = false :=
        fun x hx => h x (List.mem_cons_of_mem en hx)
      show observerCallback rest
        (if en.isIntersecting then en.targetId else active) = active
      rw [hb]
      exact observerCallback_no_intersect rest active htail

/-- The tracker fold keeps the active id among the declared sections. -/
theorem trackerFold_mem_sections :
    ∀ (events : List (List Entry)) (active : String),
      (∀ ev ∈ events, ∀ en ∈ ev, en.targetId ∈ sections) →
        active ∈ sections →
        events.foldl (fun a entries => observerCallback entries a) active ∈
          sections
  | [], _, _, ha => ha
  | ev :: rest, active, h, ha => by
      have hstep : observerCallback ev active ∈ sections :=
        observerCallback_mem_sections ev active
          (h ev (List.mem_cons_self ev rest)) ha
      exact trackerFold_mem_sections rest _
        (fun x hx => h x (List.mem_cons_of_mem ev hx)) hstep

/-- The tracker fold is the identity when no entry ever intersects. -/
theorem trackerFold_no_intersect :
    ∀ (events : List (List Entry)) (active : String),
      (∀ ev ∈ events, ∀ en ∈ ev, en.isIntersecting = false) →
        events.foldl (fun a entries => observerCallback entries a) active =
          active
  | [], _, _ => rfl
  | ev :: rest, active, h => by
      show rest.foldl (fun a entries => observerCallback entries a)
        (observerCallback ev active) = active
      rw [observerCallback_no_intersect ev active
        (h ev (List.mem_cons_self ev rest))]
      exact trackerFold_no_intersect rest active
        (fun x hx => h x (List.mem_cons_of_mem ev hx))

end ILP

/-- C6: the active-section state is initialised to `"home"`; after any
sequence of intersection events whose entries all target observed
(declared) sections it remains one of the declared ids; and if no entry
ever intersects (no section enters the detection band) it is still
`"home"`. -/
theorem tracker_active_id_invariant (events : List (List ILP.Entry))
    (hobs : ∀ ev ∈ events, ∀ en ∈ ev, en.targetId ∈ ILP.sections) :
    ILP.runTracker [] = "home" ∧
    ILP.runTracker events ∈ ILP.sections ∧
    ((∀ ev ∈ events, ∀ en ∈ ev, en.isIntersecting = false) →
      ILP.runTracker events = "home") := by
  refine ⟨rfl, ?_, ?_⟩
  · exact ILP.trackerFold_mem_sections events "home" hobs (by decide)
  · intro hno
    exact ILP.trackerFold_no_intersect events "home" hno

/-- Witness for `tracker_active_id_invariant`: one intersection event for
the `"activities"` section. -/
theorem tracker_active_id_invariant_witness :
    ILP.runTracker [[⟨"activities", true⟩]] ∈ ILP.sections ∧
    ILP.runTracker [[⟨"home", false⟩]] = "home" :=
  ⟨(tracker_active_id_invariant [[⟨"activities", true⟩]] (by decide)).2.1,
   (tracker_active_id_invariant [[⟨"home", false⟩]] (by decide)).2.2
     (by decide)⟩

namespace ILP

/-- For a nonempty list, `getLastD` is the entry at index `length - 1`. -/
theorem getLastD_eq_get : ∀ (l : List Nat) (d : Nat) (h : l ≠ []),
    l.getLastD d = l.get ⟨l.length - 1, by
      cases l with
      | nil => exact absurd rfl h
      | cons a t => simp⟩
  | [_], _, _ => rfl
  | a :: b :: t, d, _ => by
      show (b :: t).getLastD a = _
      rw [getLastD_eq_get (b :: t) a (by simp)]
      rfl

/-- One Tab / Shift+Tab press starting on a focusable element keeps focus
among the focusable elements, provided the document's tab order is
consecutive on the focusable list. -/
theorem tabStep_mem {focusable : List Nat} {nextEl prevEl : Nat → Nat}
    (hnext : ∀ i (h : i + 1 < focusable.length),
      nextEl (focusable.get ⟨i, Nat.lt_of_succ_lt h⟩) =
        focusable.get ⟨i + 1, h⟩)
    (hprev : ∀ i (h : i + 1 < focusable.length),
      prevEl (focusable.get ⟨i + 1, h⟩) =
        focusable.get ⟨i, Nat.lt_of_succ_lt h⟩)
    (shift : Bool) (focus : Nat) (hf : focus ∈ focusable) :
    tabStep focusable nextEl prevEl shift focus ∈ focusable := by
  have hne : focusable ≠ [] := by
    rintro rfl
    simp at hf
  have hlen : focusable.length ≠ 0 := by
    simpa [List.length_eq_zero] using hne
  have hjlt : focusable.indexOf focus < focusable.length :=
    List.indexOf_lt_length.mpr hf
  have hgetj : focusable.get ⟨focusable.indexOf focus, hjlt⟩ = focus :=
    List.indexOf_get hjlt
  have hidx : jsIndexOf focusable focus = (focusable.indexOf focus : Int) :=
    jsIndexOf_of_mem hf
  cases shift with
  | true =>
    by_cases h0 : focusable.indexOf focus = 0
    · have hk : onKeyTab focusable true focus =
          .intercepted (focusable.getLastD 0) := by
        unfold onKeyTab
        rw [if_pos hlen, if_pos ⟨rfl, by rw [hidx, h0]; exact le_refl 0⟩]
      simp only [tabStep, hk]
      exact getLastD_mem focusable hne
    · have hk : onKeyTab focusable true focus = .defaultAction := by
        unfold onKeyTab
        rw [if_pos hlen, if_neg ?hc1, if_neg ?hc2]
        case hc1 =>
          rintro ⟨-, hle⟩
          rw [hidx] at hle
          omega
        case hc2 =>
          rintro ⟨hsh, -⟩
          cases hsh
      simp only [tabStep, hk, if_pos]
      have hj1 : (focusable.indexOf focus - 1) + 1 < focusable.length := by
        omega
      have heq : (⟨focusable.indexOf focus - 1 + 1, hj1⟩ :
          Fin focusable.length) = ⟨focusable.indexOf focus, hjlt⟩ := by
        apply Fin.ext
        show focusable.indexOf focus - 1 + 1 = focusable.indexOf focus
        omega
      have h2 := hprev (focusable.indexOf focus - 1) hj1
      rw [heq, hgetj] at h2
      rw [h2]
      exact List.get_mem _ _ _
  | false =>
    by_cases hlast : focusable.indexOf focus = focusable.length - 1
    · have hk : onKeyTab focusable false focus =
          .intercepted (focusable.headD 0) := by
        unfold onKeyTab
        rw [if_pos hlen, if_neg ?hc1, if_pos ⟨rfl, by rw [hidx]; omega⟩]
        case hc1 =>
          rintro ⟨hsh, -⟩
          cases hsh
      simp only [tabStep, hk]
      exact headD_mem focusable hne
    · have hk : onKeyTab focusable false focus = .defaultAction := by
        unfold onKeyTab
        rw [if_pos hlen, if_neg ?hc1, if_neg ?hc2]
        case hc1 =>
          rintro ⟨hsh, -⟩
          cases hsh
        case hc2 =>
          rintro ⟨-, heq⟩
          rw [hidx] at heq
          omega
      simp only [tabStep, hk, if_neg]
      have hj1 : focusable.indexOf focus + 1 < focusable.length := by
        omega
      have hgets : focusable.get ⟨focusable.indexOf focus,
          Nat.lt_of_succ_lt hj1⟩ = focus := hgetj
      have h2 := hnext (focusable.indexOf focus) hj1
      rw [hgets] at h2
      rw [h2]
      exact List.get_mem _ _ _

/-- Any sequence of Tab / Shift+Tab presses starting on a focusable
element keeps focus among the focusable elements. -/
theorem tabRun_mem {focusable : List Nat} {nextEl prevEl : Nat → Nat}
    (hnext : ∀ i (h : i + 1 < focusable.length),
      nextEl (focusable.get ⟨i, Nat.lt_of_succ_lt h⟩) =
        focusable.get ⟨i + 1, h⟩)
    (hprev : ∀ i (h : i + 1 < focusable.length),
      prevEl (focusable.get ⟨i + 1, h⟩) =
        focusable.get ⟨i, Nat.lt_of_succ_lt h⟩) :
    ∀ (presses : List Bool) (focus : Nat), focus ∈ focusable →
      tabRun focusable nextEl prevEl presses focus ∈ focusable
  | [], _, hf => hf
  | s :: rest, focus, hf => by
      show tabRun focusable nextEl prevEl rest
        (tabStep focusable nextEl prevEl s focus) ∈ focusable
      exact tabRun_mem hnext hprev rest _ (tabStep_mem hnext hprev s focus hf)

end ILP

namespace ILP

/-- Shift+Tab with the first focusable element active is intercepted by the
trap and wraps focus to the last focusable element. -/
theorem onKeyTab_head_shift (focusable : List Nat) (hne : focusable ≠ []) :
    onKeyTab focusable true (focusable.headD 0) =
      .intercepted (focusable.getLastD 0) := by
  obtain ⟨a, t, rfl⟩ : ∃ a t, focusable = a :: t := by
    cases focusable with
    | nil => exact absurd rfl hne
    | cons a t => exact ⟨a, t, rfl⟩
  have hidx : jsIndexOf (a :: t) ((a :: t).headD 0) = 0 := by
    show jsIndexOf (a :: t) a = 0
    rw [jsIndexOf_of_mem (List.mem_cons_self a t), List.indexOf_cons_self]
    rfl
  unfold onKeyTab
  rw [if_pos (by simp), if_pos ⟨rfl, by rw [hidx]⟩]

/-- Tab with the last focusable element active is intercepted by the trap
and wraps focus to the first focusable element. -/
theorem onKeyTab_last_tab (focusable : List Nat) (hne : focusable ≠ [])
    (hnd : focusable.Nodup) :
    onKeyTab focusable false (focusable.getLastD 0) =
      .intercepted (focusable.headD 0) := by
  have hlen : focusable.length ≠ 0 := by
    simpa [List.length_eq_zero] using hne
  have hmem : focusable.getLastD 0 ∈ focusable := getLastD_mem _ hne
  have hidx : jsIndexOf focusable (focusable.getLastD 0) =
      ((focusable.length - 1 : Nat) : Int) := by
    rw [jsIndexOf_of_mem hmem, getLastD_eq_get focusable 0 hne,
      List.get_indexOf hnd]
  unfold onKeyTab
  rw [if_pos hlen, if_neg ?hc1, if_pos ⟨rfl, by rw [hidx]; omega⟩]
  case hc1 =>
    rintro ⟨hsh, -⟩
    cases hsh

end ILP

/-- C3: with `N ≥ 1` focusable descendants whose document tab order is
consecutive (`nextEl` / `prevEl` model the browser's default Tab targets),
any sequence of Tab / Shift+Tab presses starting on a focusable element
keeps focus within the focusable set; Tab on the last element wraps to the
first and Shift+Tab on the first wraps to the last. -/
theorem tab_trap_cycles_within_focusable (focusable : List Nat)
    (nextEl prevEl : Nat → Nat) (hne : focusable ≠ [])
    (hnd : focusable.Nodup)
    (hnext : ∀ i (h : i + 1 < focusable.length),
      nextEl (focusable.get ⟨i, Nat.lt_of_succ_lt h⟩) =
        focusable.get ⟨i + 1, h⟩)
    (hprev : ∀ i (h : i + 1 < focusable.length),
      prevEl (focusable.get ⟨i + 1, h⟩) =
        focusable.get ⟨i, Nat.lt_of_succ_lt h⟩) :
    (∀ (presses : List Bool) (focus : Nat), focus ∈ focusable →
      ILP.tabRun focusable nextEl prevEl presses focus ∈ focusable) ∧
    ILP.tabStep focusable nextEl prevEl false (focusable.getLastD 0) =
      focusable.headD 0 ∧
    ILP.tabStep focusable nextEl prevEl true (focusable.headD 0) =
      focusable.getLastD 0 := by
  refine ⟨fun presses focus hf =>
    ILP.tabRun_mem hnext hprev presses focus hf, ?_, ?_⟩
  · simp only [ILP.tabStep, ILP.onKeyTab_last_tab focusable hne hnd]
  · simp only [ILP.tabStep, ILP.onKeyTab_head_shift focusable hne]

/-- Witness for `tab_trap_cycles_within_focusable`: three focusable
elements `1, 2, 3` laid out consecutively in the document tab order. -/
theorem tab_trap_cycles_witness :
    ILP.tabRun [1, 2, 3] (fun n => n + 1) (fun n => n - 1)
      [false, false, true, true] 2 ∈ [1, 2, 3] ∧
    ILP.tabStep [1, 2, 3] (fun n => n + 1) (fun n => n - 1) false
      ([1, 2, 3].getLastD 0) = [1, 2, 3].headD 0 ∧
    ILP.tabStep [1, 2, 3] (fun n => n + 1) (fun n => n - 1) true
      ([1, 2, 3].headD 0) = [1, 2, 3].getLastD 0 :=
  have h := tab_trap_cycles_within_focusable [1, 2, 3] (fun n => n + 1)
    (fun n => n - 1) (by decide) (by decide)
    (by
      intro i h
      have h2 : i < 2 := by simp at h; omega
      interval_cases i <;> rfl)
    (by
      intro i h
      have h2 : i < 2 := by simp at h; omega
      interval_cases i <;> rfl)
  ⟨h.1 [false, false, true, true] 2 (by decide), h.2.1, h.2.2⟩

/-- C9: while the modal is open with a nonempty focusable list, a
Shift+Tab press with the active element outside the list (JS `indexOf`
yields `-1 ≤ 0`) is intercepted and focuses the last focusable element —
the same wrap as Shift+Tab from the first element — whereas a plain Tab
press in that situation is not intercepted by the trap. -/
theorem shift_tab_outside_wraps_to_last (focusable : List Nat)
    (focus : Nat) (hne : focusable ≠ []) (hout : focus ∉ focusable) :
    ILP.onKeyTab focusable true focus =
      .intercepted (focusable.getLastD 0) ∧
    ILP.onKeyTab focusable false focus = .defaultAction ∧
    ILP.onKeyTab focusable true (focusable.headD 0) =
      .intercepted (focusable.getLastD 0) := by
  have hlen : focusable.length ≠ 0 := by
    simpa [List.length_eq_zero] using hne
  have hidx : ILP.jsIndexOf focusable focus = -1 :=
    ILP.jsIndexOf_of_not_mem hout
  refine ⟨?_, ?_, ILP.onKeyTab_head_shift focusable hne⟩
  · unfold ILP.onKeyTab
    rw [if_pos hlen, if_pos ⟨rfl, by rw [hidx]; decide⟩]
  · unfold ILP.onKeyTab
    rw [if_pos hlen, if_neg ?h1, if_neg ?h2]
    case h1 =>
      rintro ⟨hsh, -⟩
      cases hsh
    case h2 =>
      rintro ⟨-, habs⟩
      rw [hidx] at habs
      omega

/-- Witness for `shift_tab_outside_wraps_to_last`: focus on element `9`,
outside the focusable list `[1, 2, 3]`. -/
theorem shift_tab_outside_witness :
    ILP.onKeyTab [1, 2, 3] true 9 =
      .intercepted ([1, 2, 3].getLastD 0) ∧
    ILP.onKeyTab [1, 2, 3] false 9 = .defaultAction :=
  ⟨(shift_tab_outside_wraps_to_last [1, 2, 3] 9 (by decide) (by decide)).1,
   (shift_tab_outside_wraps_to_last [1, 2, 3] 9 (by decide)
      (by decide)).2.1⟩
